import Mathlib

/-!
Verification development for the C expression parser (`parser.c` / `parser.h`).

The C code is shallowly embedded: C `double` values are modelled as exact
rationals together with an explicit NaN constructor (`Val`); the global lexer
and symbol-table state is an explicit state record (`St`) threaded through a
state-and-error monad (`M`); the `setjmp`/`longjmp` error signal is the
`Except` layer of that monad; the mutually recursive precedence levels are
defined by structural recursion on a fuel argument (`interp`), with `none`
meaning "out of fuel" (the C code has no such case; it simply recurses).

External C library functions with no source in this repository (libm
transcendental functions, `pow`, wall-clock time, `rand`) are supplied by an
environment record (`Env`): theorems quantify over the environment, and
concrete evaluations use the reference environment `env0`.

Unmodelled aspects (noted where relevant): IEEE-754 rounding of decimal
literals and of `+ - * /` (arithmetic here is exact rational arithmetic),
overflow to infinity, the 256-byte truncation of the error-message buffer,
the 100-slot cap of the symbol array (the C code never checks it), and the
undefined behaviour of `(int)x` casts for NaN or out-of-range doubles.
-/

set_option maxRecDepth 8000

unseal Rat.add Rat.sub Rat.mul Rat.inv Rat.ofScientific

namespace CParser

/-- Model of a C `double` as used by the parser: an exact rational, or NaN.
Infinities never arise in the modelled paths and are not represented. -/
inductive Val where
  | num (q : ℚ)
  | nan
deriving DecidableEq, Repr

/-- C `+` on doubles: NaN propagates. -/
def Val.add : Val → Val → Val
  | Val.num a, Val.num b => Val.num (a + b)
  | _, _ => Val.nan

/-- C `-` (binary) on doubles: NaN propagates. -/
def Val.sub : Val → Val → Val
  | Val.num a, Val.num b => Val.num (a - b)
  | _, _ => Val.nan

/-- C `*` on doubles: NaN propagates. -/
def Val.mul : Val → Val → Val
  | Val.num a, Val.num b => Val.num (a * b)
  | _, _ => Val.nan

/-- C `/` on doubles: NaN propagates.  The parser only divides after checking
the divisor against `0.0` with `==`, so the `b = 0` case (which in C would
give an infinity) is unreachable; it is mapped to NaN. -/
def Val.div : Val → Val → Val
  | Val.num a, Val.num b => if b = 0 then Val.nan else Val.num (a / b)
  | _, _ => Val.nan

/-- C unary `-` on doubles. -/
def Val.neg : Val → Val
  | Val.num a => Val.num (-a)
  | Val.nan => Val.nan

/-- C `==` on doubles: any comparison involving NaN is false. -/
def Val.ceq : Val → Val → Bool
  | Val.num a, Val.num b => decide (a = b)
  | _, _ => false

/-- C `!=` on doubles: true whenever an operand is NaN. -/
def Val.cne : Val → Val → Bool
  | Val.num a, Val.num b => decide (a ≠ b)
  | _, _ => true

/-- C `<` on doubles: false whenever an operand is NaN. -/
def Val.clt : Val → Val → Bool
  | Val.num a, Val.num b => decide (a < b)
  | _, _ => false

/-- C `>` on doubles: false whenever an operand is NaN. -/
def Val.cgt : Val → Val → Bool
  | Val.num a, Val.num b => decide (b < a)
  | _, _ => false

/-- C `<=` on doubles: false whenever an operand is NaN. -/
def Val.cle : Val → Val → Bool
  | Val.num a, Val.num b => decide (a ≤ b)
  | _, _ => false

/-- C `>=` on doubles: false whenever an operand is NaN. -/
def Val.cge : Val → Val → Bool
  | Val.num a, Val.num b => decide (b ≤ a)
  | _, _ => false

/-- Truncation of a rational toward zero, as the C cast `(int)` does for
in-range doubles (the out-of-range and NaN cases are UB in C and simply
truncated resp. sent to 0 here; no modelled claim depends on them). -/
def truncQ (q : ℚ) : ℤ :=
  if q < 0 then -((-q).floor) else q.floor

/-- C cast `(int)` applied to a `Val` (NaN is UB in C; modelled as 0,
which is never observable in the claims proved below). -/
def truncVal : Val → ℤ
  | Val.num q => truncQ q
  | Val.nan => 0

/-- `enum TokenType` from `parser.h`.  `NONE`, `NAME`, `NUMBER`, `END` are
0,1,2,3; the single-character tokens carry their character codes; `LE`..`OR`
and the compound assignments continue from `'>'` resp. `OR`. -/
inductive Tok where
  | none_
  | name
  | number
  | end_
  | plus
  | minus
  | multiply
  | power
  | divide
  | assign
  | lhparen
  | rhparen
  | comma
  | not_
  | lt
  | gt
  | le
  | ge
  | eq
  | ne
  | and_
  | or_
  | assignAdd
  | assignSub
  | assignMul
  | assignDiv
deriving DecidableEq, Repr

/-- The numeric value of each `enum TokenType` member, as a character: used
by the `CheckToken` macro's `"expected '%c'"` message (only ever reached
with `RHPAREN` and `COMMA` in the source). -/
def tokChar : Tok → Char
  | Tok.none_ => Char.ofNat 0
  | Tok.name => Char.ofNat 1
  | Tok.number => Char.ofNat 2
  | Tok.end_ => Char.ofNat 3
  | Tok.plus => '+'
  | Tok.minus => '-'
  | Tok.multiply => '*'
  | Tok.power => '^'
  | Tok.divide => '/'
  | Tok.assign => '='
  | Tok.lhparen => '('
  | Tok.rhparen => ')'
  | Tok.comma => ','
  | Tok.not_ => '!'
  | Tok.lt => '<'
  | Tok.gt => '>'
  | Tok.le => Char.ofNat 63
  | Tok.ge => Char.ofNat 64
  | Tok.eq => Char.ofNat 65
  | Tok.ne => Char.ofNat 66
  | Tok.and_ => Char.ofNat 67
  | Tok.or_ => Char.ofNat 68
  | Tok.assignAdd => Char.ofNat 69
  | Tok.assignSub => Char.ofNat 70
  | Tok.assignMul => Char.ofNat 71
  | Tok.assignDiv => Char.ofNat 72

/-- The five assignment token kinds (`= += -= *= /=`). -/
def isAsg : Tok → Bool
  | Tok.assign => true
  | Tok.assignAdd => true
  | Tok.assignSub => true
  | Tok.assignMul => true
  | Tok.assignDiv => true
  | _ => false

/-- The errors `runtime_error` is called with, one constructor per format
string in `parser.c`. -/
inductive PErr where
  | unexpectedEnd
  | badNumericLiteral (w : String)
  | unexpectedChar (c : Char)
  | expectedTok (t : Tok)
  | divByZero
  | divByZeroMod
  | funNotImpl (w : String)
  | unexpectedToken (w : String)
  | trailingText (s : String)
deriving DecidableEq, Repr

/-- One lowercase hex digit, as `%x` formats it. -/
def hexDigit (n : ℕ) : Char :=
  if n < 10 then Char.ofNat (48 + n) else Char.ofNat (87 + n)

/-- Two-digit lowercase hex, as `%02x` formats a value below 256. -/
def hex2 (n : ℕ) : String :=
  String.mk [hexDigit (n / 16 % 16), hexDigit (n % 16)]

/-- The message `runtime_error` leaves in `ParserErrBuf`: the `"Error! "`
prefix followed by the formatted format string of the call site.  (The
256-byte truncation of the buffer is not modelled; it never empties the
message.) -/
def renderErr : PErr → String
  | PErr.unexpectedEnd => "Error! Unexpected end of expression"
  | PErr.badNumericLiteral w => "Error! Bad numeric literal: " ++ w
  | PErr.unexpectedChar c =>
      if c.toNat < 32 then "Error! Unexpected character 0x" ++ hex2 c.toNat
      else "Error! Unexpected character '" ++ String.mk [c] ++ "'"
  | PErr.expectedTok t => "Error! expected '" ++ String.mk [tokChar t] ++ "'"
  | PErr.divByZero => "Error! Divide by zero"
  | PErr.divByZeroMod => "Error! Divide by zero in mod"
  | PErr.funNotImpl w => "Error! Function '" ++ w ++ "' not implemented"
  | PErr.unexpectedToken w => "Error! Unexpected token: '" ++ w ++ "'"
  | PErr.trailingText s => "Error! Unexpected text at end of expression: '" ++ s ++ "'"

/-- C `isspace` in the C locale, on the characters that can occur. -/
def isCSpace (c : Char) : Bool :=
  c = ' ' || c.toNat = 9 || c.toNat = 10 || c.toNat = 11 || c.toNat = 12 || c.toNat = 13

/-- C `isdigit`. -/
def isCDigit (c : Char) : Bool :=
  48 ≤ c.toNat && c.toNat ≤ 57

/-- C `isalpha` in the C locale. -/
def isCAlpha (c : Char) : Bool :=
  (65 ≤ c.toNat && c.toNat ≤ 90) || (97 ≤ c.toNat && c.toNat ≤ 122)

/-- C `isalnum` in the C locale. -/
def isCAlnum (c : Char) : Bool :=
  isCAlpha c || isCDigit c

/-- The whitespace skip at the top of `GetToken`. -/
def skipSpaces : List Char → List Char
  | [] => []
  | c :: cs => if isCSpace c then skipSpaces cs else c :: cs

/-- Numeric value of a digit string, most significant first. -/
def natOfDigits (l : List Char) : ℕ :=
  l.foldl (fun a c => a * 10 + (c.toNat - 48)) 0

/-- Exact value of `10^e` as a rational (for `strtod`'s exponent). -/
def powTen (e : ℤ) : ℚ :=
  if 0 ≤ e then ((10 : ℚ) ^ e.toNat) else 1 / (10 : ℚ) ^ (-e).toNat

/-- The exponent part accepted by `strtod`: `e`/`E`, optional sign, and at
least one digit; returns characters consumed and the signed exponent, or
`(0, 0)` if no valid exponent starts here (then `strtod` stops before it). -/
def strtodExp : List Char → ℕ × ℤ
  | c :: rest =>
      if c = 'e' || c = 'E' then
        let sg : List Char × List Char :=
          match rest with
          | d :: t => if d = '+' || d = '-' then ([d], t) else ([], rest)
          | [] => ([], [])
        let ds := sg.2.takeWhile isCDigit
        if ds = [] then (0, 0)
        else
          let e : ℤ := (natOfDigits ds : ℤ)
          (1 + sg.1.length + ds.length,
           if sg.1 = ['-'] then -e else e)
      else (0, 0)
  | [] => (0, 0)

/-- Model of C `strtod` on the character sequences the scanner hands it
(sign, digits, dots, `e`/`E`): returns the parsed value and the number of
characters consumed (0 when no conversion is possible, as `strtod` then
leaves `endptr` at the start).  Decimal-to-double rounding is not modelled;
the value is the exact rational. -/
def strtodQ (w : List Char) : ℚ × ℕ :=
  let sg : List Char × List Char :=
    match w with
    | c :: t => if c = '+' || c = '-' then ([c], t) else ([], w)
    | [] => ([], w)
  let d1 := sg.2.takeWhile isCDigit
  let r2 := sg.2.drop d1.length
  let dotPart : List Char × List Char :=
    match r2 with
    | '.' :: t => (t.takeWhile isCDigit, t.drop (t.takeWhile isCDigit).length)
    | _ => ([], r2)
  let d2 := dotPart.1
  let hasDot : Bool := decide (r2.headD (Char.ofNat 0) = '.')
  if d1 = [] && d2 = [] then (0, 0)
  else
    let ex := strtodExp dotPart.2
    let mant : ℚ := (natOfDigits d1 : ℚ) + (natOfDigits d2 : ℚ) / (10 : ℚ) ^ d2.length
    let v0 := mant * powTen ex.2
    let v := if sg.1 = ['-'] then -v0 else v0
    (v, sg.1.length + d1.length + (if hasDot then 1 + d2.length else 0) + ex.1)

/-- The symbol table `vars_lhs`/`vars_rhs`: an association list in insertion
order.  (The C array's 100-slot capacity is never checked by the code and is
not modelled.) -/
abbrev Tab := List (String × Val)

/-- `SaveSymbol`: overwrite the value if the name is already in the table,
else append a new entry at the end.  (The C function also returns a
success flag that is 0 only when `malloc` fails; allocation failure is not
modelled and every caller in the source ignores the flag.) -/
def SaveSymbol : Tab → String → Val → Tab
  | [], lhs, rhs => [(lhs, rhs)]
  | (k, v) :: t, lhs, rhs =>
      if k = lhs then (k, rhs) :: t else (k, v) :: SaveSymbol t lhs rhs

/-- The linear scan of `vars_lhs` performed by `LookupSymbol` (and by
`SaveSymbol` to decide between overwrite and append). -/
def lookupVar : Tab → String → Option Val
  | [], _ => none
  | (k, v) :: t, lhs => if k = lhs then some v else lookupVar t lhs

/-- External inputs of one evaluation: everything the C code obtains from
outside the repository (libm, wall-clock time, the `rand` stream). -/
structure Env where
  /-- `time(NULL)` cast to double. -/
  timeSec : ℚ
  /-- `gettimeofday` seconds. -/
  tvSec : ℚ
  /-- `gettimeofday` microseconds. -/
  tvUsec : ℚ
  /-- the values of successive `rand()` calls. -/
  rnd : ℕ → ℕ
  /-- the pure one-argument libm functions (`acos`, `sin`, ..., keyed by
  name); their values are not specified by this repository. -/
  libm1 : String → Val → Val
  /-- libm `pow`, used by the `^` operator and by `DoPow`'s fallback. -/
  powF : Val → Val → Val

/-- `NO_LHS_MATCH` is defined as `sqrt(-1)`, i.e. NaN. -/
def NO_LHS_MATCH : Val := Val.nan

/-- `LookupSymbol`: the two computed pseudo-symbols first (`time`, then
`timems`), then the stored table; a miss returns the numeric sentinel
`NO_LHS_MATCH` (NaN). -/
def LookupSymbol (env : Env) (tab : Tab) (lhs : String) : Val :=
  if lhs = "time" then Val.num env.timeSec
  else if lhs = "timems" then Val.num (env.tvSec * 1000 + env.tvUsec / 1000)
  else
    match lookupVar tab lhs with
    | some v => v
    | none => NO_LHS_MATCH

/-- The decimal literal behind `M_PI` as seeded by `Evaluate`
(IEEE rounding of the literal to a double is not modelled). -/
def piQ : ℚ := (31415926535897932385 : ℚ) / 10 ^ 19

/-- The decimal literal behind `M_E` as seeded by `Evaluate`. -/
def eQ : ℚ := (27182818284590452354 : ℚ) / 10 ^ 19

/-- The seeding performed at the top of every `Evaluate` call:
`SaveSymbol("pi", M_PI); SaveSymbol("e", M_E);`. -/
def seedConsts (tab : Tab) : Tab :=
  SaveSymbol (SaveSymbol tab "pi" (Val.num piQ)) "e" (Val.num eQ)

/-- The mutable globals of `parser.c` during one evaluation: the lexer
cursor `pWord_`/`pWordStart_`, the current token (`word_`, `type_`,
`value_`), the symbol table, the position in the `rand()` stream, and a
ghost trace `toks` of every token `GetToken` has returned (newest first;
it influences nothing and exists only to state theorems about which tokens
an evaluation produced). -/
structure St where
  input : List Char
  start : List Char
  word : String
  type : Tok
  value : Val
  tab : Tab
  rndIx : ℕ
  toks : List Tok
deriving DecidableEq, Repr

/-- The evaluation monad: state, abort-with-error (`setjmp`/`longjmp`
carries the state mutations done so far), and `none` for fuel exhaustion
of the model (the C code just recurses). -/
def M (α : Type) : Type := St → Option (Except PErr α × St)

/-- Sequencing in `M`: an error short-circuits, keeping the state at the
point of the `longjmp`. -/
def M.bind {α β : Type} (m : M α) (f : α → M β) : M β := fun s =>
  match m s with
  | none => none
  | some (Except.ok a, s1) => f a s1
  | some (Except.error e, s1) => some (Except.error e, s1)

instance : Monad M where
  pure a := fun s => some (Except.ok a, s)
  bind := M.bind

/-- `runtime_error`: abort the evaluation carrying the message. -/
def throwErr {α : Type} (e : PErr) : M α := fun s => some (Except.error e, s)

/-- The model's fuel-exhaustion escape (no C counterpart). -/
def outOfFuel {α : Type} : M α := fun _ => none

/-- Read the current token type `type_`. -/
def readType : M Tok := fun s => some (Except.ok s.type, s)

/-- Read the current token text `word_`. -/
def readWord : M String := fun s => some (Except.ok s.word, s)

/-- Read the current numeric token value `value_`. -/
def readValue : M Val := fun s => some (Except.ok s.value, s)

/-- `LookupSymbol` reading the live table. -/
def lookupSymM (env : Env) (lhs : String) : M Val := fun s =>
  some (Except.ok (LookupSymbol env s.tab lhs), s)

/-- `SaveSymbol` writing the live table. -/
def saveSymM (lhs : String) (rhs : Val) : M Unit := fun s =>
  some (Except.ok (), { s with tab := SaveSymbol s.tab lhs rhs })

/-- The `CheckToken(wanted)` macro. -/
def checkTok (wanted : Tok) : M Unit := fun s =>
  if s.type = wanted then some (Except.ok (), s)
  else some (Except.error (PErr.expectedTok wanted), s)

/-- The scanner's exponent step in `GetToken`'s number branch: `e`/`E` and a
following sign are consumed unconditionally, then any digits (so `"1e+"`
scans fully but later fails `strtod`'s check). -/
def scanExp : List Char → List Char × List Char
  | c :: rest =>
      if c = 'e' || c = 'E' then
        let sg : List Char × List Char :=
          match rest with
          | d :: t => if d = '+' || d = '-' then ([d], t) else ([], rest)
          | [] => ([], [])
        let ds := sg.2.takeWhile isCDigit
        (c :: (sg.1 ++ ds), sg.2.drop ds.length)
      else ([], c :: rest)
  | [] => ([], [])

/-- The single-character tokens of `GetToken`'s final `switch`. -/
def singleTok : Char → Option Tok
  | '=' => some Tok.assign
  | '<' => some Tok.lt
  | '>' => some Tok.gt
  | '+' => some Tok.plus
  | '-' => some Tok.minus
  | '/' => some Tok.divide
  | '*' => some Tok.multiply
  | '^' => some Tok.power
  | '(' => some Tok.lhparen
  | ')' => some Tok.rhparen
  | ',' => some Tok.comma
  | '!' => some Tok.not_
  | _ => none

/-- The two-character tokens recognised when the second character is `=`. -/
def twoCharEq : Char → Option Tok
  | '=' => some Tok.eq
  | '<' => some Tok.le
  | '>' => some Tok.ge
  | '!' => some Tok.ne
  | '+' => some Tok.assignAdd
  | '-' => some Tok.assignSub
  | '*' => some Tok.assignMul
  | '/' => some Tok.assignDiv
  | _ => none

/-- `GetToken(ignoreSign)` as a pure state transformer: skip whitespace,
error on a second consecutive end-of-input, then recognise (in source
order) end-of-input, numbers, `X=` composites, `&&`/`||`, single-character
tokens, and names; anything else is an "Unexpected character" error. -/
def getTokenFn (ign : Bool) (s : St) : Except PErr Tok × St :=
  let inp := skipSpaces s.input
  if inp = [] ∧ s.type = Tok.end_ then
    (Except.error PErr.unexpectedEnd, { s with input := inp, start := inp, word := "" })
  else
    match inp with
    | [] =>
        (Except.ok Tok.end_,
         { s with input := [], start := [], word := "<end of expression>",
                  type := Tok.end_, toks := Tok.end_ :: s.toks })
    | c :: rest =>
        let cn := rest.headD (Char.ofNat 0)
        if (!ign && (c = '+' || c = '-') && (isCDigit cn || cn = '.'))
            || isCDigit c || (c = '.' && isCDigit cn) then
          let sgn : List Char := if c = '+' || c = '-' then [c] else []
          let p1 : List Char := if c = '+' || c = '-' then rest else inp
          let man := p1.takeWhile (fun ch => isCDigit ch || ch = '.')
          let p2 := p1.drop man.length
          let ex := scanExp p2
          let w := sgn ++ man ++ ex.1
          let sv := strtodQ w
          if sv.2 < w.length then
            (Except.error (PErr.badNumericLiteral (String.mk w)),
             { s with input := ex.2, start := inp, word := String.mk w,
                      value := Val.num sv.1 })
          else
            (Except.ok Tok.number,
             { s with input := ex.2, start := inp, word := String.mk w,
                      value := Val.num sv.1, type := Tok.number,
                      toks := Tok.number :: s.toks })
        else
          match (if cn = '=' then twoCharEq c else none) with
          | some t =>
              (Except.ok t,
               { s with input := rest.tail, start := inp, word := String.mk [c, '='],
                        type := t, toks := t :: s.toks })
          | none =>
              if c = '&' && cn = '&' then
                (Except.ok Tok.and_,
                 { s with input := rest.tail, start := inp, word := "&&",
                          type := Tok.and_, toks := Tok.and_ :: s.toks })
              else if c = '|' && cn = '|' then
                (Except.ok Tok.or_,
                 { s with input := rest.tail, start := inp, word := "||",
                          type := Tok.or_, toks := Tok.or_ :: s.toks })
              else
                match singleTok c with
                | some t =>
                    (Except.ok t,
                     { s with input := rest, start := inp, word := String.mk [c],
                              type := t, toks := t :: s.toks })
                | none =>
                    if isCAlpha c then
                      let nm := inp.takeWhile (fun ch => isCAlnum ch || ch = '_')
                      (Except.ok Tok.name,
                       { s with input := inp.drop nm.length, start := inp,
                                word := String.mk nm, type := Tok.name,
                                toks := Tok.name :: s.toks })
                    else
                      (Except.error (PErr.unexpectedChar c),
                       { s with input := inp, start := inp, word := "" })

/-- `GetToken` in the evaluation monad. -/
def GetToken (ign : Bool) : M Tok := fun s => some (getTokenFn ign s)

/-- One `rand()` call: the next value of the environment's stream. -/
def randM (env : Env) : M ℕ := fun s =>
  some (Except.ok (env.rnd s.rndIx), { s with rndIx := s.rndIx + 1 })

/-- `getrandom(x)`: 0 for non-positive `x` (without consuming a draw), else
`floor(((rand() % RAND_MAX) / (RAND_MAX + 1.0)) * x)` with
`RAND_MAX = 2147483647`. -/
def getrandomM (env : Env) (x : ℤ) : M ℤ :=
  if x ≤ 0 then pure 0
  else do
    let d ← randM env
    pure (((((d % 2147483647 : ℕ) : ℚ) / 2147483648) * (x : ℚ)).floor)

/-- `percent(prob)`: clamped at 0 and 100, else `getrandom(100) > 100 - prob`. -/
def percentM (env : Env) (prob : ℤ) : M Bool :=
  if prob ≤ 0 then pure false
  else if 100 ≤ prob then pure true
  else do
    let g ← getrandomM env 100
    pure (decide (100 - prob < g))

/-- `DoInt`: `(int)arg`, dropping the fractional part. -/
def DoInt : Val → Val
  | Val.num q => Val.num ((truncQ q : ℤ) : ℚ)
  | Val.nan => Val.nan

/-- `DoRandom`: `getrandom(arg)` with `arg` converted to `int`. -/
def DoRandom (env : Env) (v : Val) : M Val := do
  let r ← getrandomM env (truncVal v)
  pure (Val.num (r : ℚ))

/-- `DoPercent`: 1.0 if `percent((int)arg)`, else 0.0. -/
def DoPercent (env : Env) (v : Val) : M Val := do
  let b ← percentM env (truncVal v)
  pure (if b then Val.num 1 else Val.num 0)

/-- `DoMin`: `arg1 < arg2 ? arg1 : arg2` (C `<`: false on NaN). -/
def DoMin (a b : Val) : Val :=
  if Val.clt a b then a else b

/-- `DoMax`: `arg1 > arg2 ? arg1 : arg2` (C `>`: false on NaN). -/
def DoMax (a b : Val) : Val :=
  if Val.cgt a b then a else b

/-- libm `fmod`, which is exact: `x - trunc(x/y)*y` (NaN on NaN input or on
`y = 0`, though `DoFmod` never reaches the latter). -/
def cfmod : Val → Val → Val
  | Val.num a, Val.num b =>
      if b = 0 then Val.nan else Val.num (a - b * ((truncQ (a / b) : ℤ) : ℚ))
  | _, _ => Val.nan

/-- `DoFmod`: divide-by-zero error when `arg2 == 0.0`, else `fmod`. -/
def DoFmod (_env : Env) (a b : Val) : M Val :=
  if Val.ceq b (Val.num 0) then throwErr PErr.divByZeroMod else pure (cfmod a b)

/-- The `while (--n) result *= arg1;` loop of `DoPow`: `powLoop a acc k`
multiplies `acc` by `a` another `k` times, left to right. -/
def powLoop (a : Val) : Val → ℕ → Val
  | acc, 0 => acc
  | acc, k + 1 => powLoop a (Val.mul acc a) k

/-- `DoPow`: with `n = (int)arg2`, if `0 < n && n <= 64 && (double)n == arg2`
multiply `arg1` into an accumulator `n - 1` times starting from `arg1`;
otherwise delegate to libm `pow`.  (For NaN `arg2` the C cast is UB but the
`(double)n == arg2` conjunct is false regardless, so the fallback runs.) -/
def DoPow (env : Env) (a b : Val) : Val :=
  match b with
  | Val.num q =>
      let n := truncQ q
      if 0 < n ∧ n ≤ 64 ∧ ((n : ℚ) = q) then powLoop a a (n.toNat - 1)
      else env.powF a b
  | Val.nan => env.powF a b

/-- `DoIf`: `arg1 != 0.0 ? arg2 : arg3` (C `!=`: true on NaN). -/
def DoIf (a b c : Val) : Val :=
  if Val.cne a (Val.num 0) then b else c

/-- Type of one-argument registry entries (stateful, for `rand`/`percent`). -/
abbrev Fn1 := Env → Val → M Val

/-- Type of two-argument registry entries (stateful, for `mod`'s error). -/
abbrev Fn2 := Env → Val → Val → M Val

/-- Type of three-argument registry entries. -/
abbrev Fn3 := Env → Val → Val → Val → M Val

/-- A pure libm function looked up in the environment by name. -/
def libmFn (nm : String) : Fn1 := fun env v => pure (env.libm1 nm v)

/-- libm `fabs` (exactly specified). -/
def fabsV : Val → Val
  | Val.num q => Val.num |q|
  | Val.nan => Val.nan

/-- libm `ceil` (exactly specified). -/
def ceilV : Val → Val
  | Val.num q => Val.num ((q.ceil : ℤ) : ℚ)
  | Val.nan => Val.nan

/-- libm `floor` (exactly specified). -/
def floorV : Val → Val
  | Val.num q => Val.num ((q.floor : ℤ) : ℚ)
  | Val.nan => Val.nan

/-- `fun1_table`, in source order (note the duplicated `exp` rows from the
two `FUN_TABLE_ENTRY(exp)` lines and the `"DoInt"` name produced by
`FUN_TABLE_ENTRY(DoInt)`). -/
def fun1_table : List (String × Fn1) :=
  [ ("abs", fun _ v => pure (fabsV v)),
    ("acos", libmFn "acos"),
    ("asin", libmFn "asin"),
    ("atan", libmFn "atan"),
    ("atanh", libmFn "atanh"),
    ("ceil", fun _ v => pure (ceilV v)),
    ("cos", libmFn "cos"),
    ("cosh", libmFn "cosh"),
    ("exp", libmFn "exp"),
    ("exp", libmFn "exp"),
    ("floor", fun _ v => pure (floorV v)),
    ("log", libmFn "log"),
    ("log10", libmFn "log10"),
    ("sin", libmFn "sin"),
    ("sinh", libmFn "sinh"),
    ("sqrt", libmFn "sqrt"),
    ("tan", libmFn "tan"),
    ("tanh", libmFn "tanh"),
    ("DoInt", fun _ v => pure (DoInt v)),
    ("int", fun _ v => pure (DoInt v)),
    ("rand", DoRandom),
    ("percent", DoPercent) ]

/-- `fun2_table` (`HAVE_ROLL` is not defined, so no `roll` row). -/
def fun2_table : List (String × Fn2) :=
  [ ("min", fun _ a b => pure (DoMin a b)),
    ("max", fun _ a b => pure (DoMax a b)),
    ("mod", DoFmod),
    ("pow", fun env a b => pure (DoPow env a b)) ]

/-- `fun3_table`. -/
def fun3_table : List (String × Fn3) :=
  [ ("if", fun _ a b c => pure (DoIf a b c)) ]

/-- `LookupFun1`: first row whose name matches exactly. -/
def LookupFun1 (w : String) : Option Fn1 :=
  (fun1_table.find? (fun e => e.1 == w)).map (fun e => e.2)

/-- `LookupFun2`. -/
def LookupFun2 (w : String) : Option Fn2 :=
  (fun2_table.find? (fun e => e.1 == w)).map (fun e => e.2)

/-- `LookupFun3`. -/
def LookupFun3 (w : String) : Option Fn3 :=
  (fun3_table.find? (fun e => e.1 == w)).map (fun e => e.2)

/-- The six mutually recursive evaluator levels (each `while` loop split
into its own function).  `interp env fuel` instantiates the whole bundle at
a recursion depth; the C code is the `fuel = ∞` limit. -/
structure Interp where
  primary : Bool → M Val
  term : Bool → M Val
  termLoop : Val → M Val
  addsub : Bool → M Val
  addsubLoop : Val → M Val
  comparison : Bool → M Val
  comparisonLoop : Val → M Val
  expression : Bool → M Val
  expressionLoop : Val → M Val
  commaList : Bool → M Val
  commaListLoop : Val → M Val

/-- Depth 0: every level is out of fuel. -/
def interpZero : Interp :=
  { primary := fun _ => outOfFuel,
    term := fun _ => outOfFuel,
    termLoop := fun _ => outOfFuel,
    addsub := fun _ => outOfFuel,
    addsubLoop := fun _ => outOfFuel,
    comparison := fun _ => outOfFuel,
    comparisonLoop := fun _ => outOfFuel,
    expression := fun _ => outOfFuel,
    expressionLoop := fun _ => outOfFuel,
    commaList := fun _ => outOfFuel,
    commaListLoop := fun _ => outOfFuel }

/-- One depth step: each level's body, translated line by line from
`parser.c`, with every nested call going through the previous depth `I`. -/
def interpStep (env : Env) (I : Interp) : Interp where
  primary := fun get => do
    -- `if (get) GetToken(false);` (one-token lookahead; the returned value
    -- is discarded, only the effect on `type_` matters)
    let _ ← (if get then GetToken false else pure Tok.none_)
    let t ← readType
    match t with
    | Tok.number => do
        let v ← readValue
        let _ ← GetToken true
        pure v
    | Tok.name => do
        let word ← readWord
        let t2 ← GetToken true
        if t2 = Tok.lhparen then
          match LookupFun1 word, LookupFun2 word, LookupFun3 word with
          | some f, _, _ => do
              let v ← I.expression true
              checkTok Tok.rhparen
              let _ ← GetToken true
              f env v
          | none, some f, _ => do
              let v1 ← I.expression true
              checkTok Tok.comma
              let v2 ← I.expression true
              checkTok Tok.rhparen
              let _ ← GetToken true
              f env v1 v2
          | none, none, some f => do
              let v1 ← I.expression true
              checkTok Tok.comma
              let v2 ← I.expression true
              checkTok Tok.comma
              let v3 ← I.expression true
              checkTok Tok.rhparen
              let _ ← GetToken true
              f env v1 v2 v3
          | none, none, none => throwErr (PErr.funNotImpl word)
        else do
          let v ← lookupSymM env word
          -- `if ((v = LookupSymbol(word)) == NO_LHS_MATCH) SaveSymbol(word, v);`
          let _ ← (if Val.ceq v NO_LHS_MATCH then saveSymM word v else pure ())
          match t2 with
          | Tok.assign => do
              let r ← I.expression true
              saveSymM word r
              pure r
          | Tok.assignAdd => do
              let r ← I.expression true
              saveSymM word (Val.add v r)
              pure (Val.add v r)
          | Tok.assignSub => do
              let r ← I.expression true
              saveSymM word (Val.sub v r)
              pure (Val.sub v r)
          | Tok.assignMul => do
              let r ← I.expression true
              saveSymM word (Val.mul v r)
              pure (Val.mul v r)
          | Tok.assignDiv => do
              let d ← I.expression true
              if Val.ceq d (Val.num 0) then throwErr PErr.divByZero
              else do
                saveSymM word (Val.div v d)
                pure (Val.div v d)
          | _ => pure v
    | Tok.minus => do
        let r ← I.primary true
        pure (Val.neg r)
    | Tok.not_ => do
        let r ← I.primary true
        pure (if Val.ceq r (Val.num 0) then Val.num 1 else Val.num 0)
    | Tok.lhparen => do
        let v ← I.commaList true
        checkTok Tok.rhparen
        let _ ← GetToken true
        pure v
    | Tok.end_ => throwErr PErr.unexpectedEnd
    | _ => do
        let w ← readWord
        throwErr (PErr.unexpectedToken w)
  term := fun get => do
    let left ← I.primary get
    I.termLoop left
  termLoop := fun left => do
    let t ← readType
    match t with
    | Tok.power => do
        let r ← I.primary true
        I.termLoop (env.powF left r)
    | Tok.multiply => do
        let r ← I.primary true
        I.termLoop (Val.mul left r)
    | Tok.divide => do
        let d ← I.primary true
        if Val.ceq d (Val.num 0) then throwErr PErr.divByZero
        else I.termLoop (Val.div left d)
    | _ => pure left
  addsub := fun get => do
    let left ← I.term get
    I.addsubLoop left
  addsubLoop := fun left => do
    let t ← readType
    match t with
    | Tok.plus => do
        let r ← I.term true
        I.addsubLoop (Val.add left r)
    | Tok.minus => do
        let r ← I.term true
        I.addsubLoop (Val.sub left r)
    | _ => pure left
  comparison := fun get => do
    let left ← I.addsub get
    I.comparisonLoop left
  comparisonLoop := fun left => do
    let t ← readType
    match t with
    | Tok.lt => do
        let r ← I.addsub true
        I.comparisonLoop (if Val.clt left r then Val.num 1 else Val.num 0)
    | Tok.gt => do
        let r ← I.addsub true
        I.comparisonLoop (if Val.cgt left r then Val.num 1 else Val.num 0)
    | Tok.le => do
        let r ← I.addsub true
        I.comparisonLoop (if Val.cle left r then Val.num 1 else Val.num 0)
    | Tok.ge => do
        let r ← I.addsub true
        I.comparisonLoop (if Val.cge left r then Val.num 1 else Val.num 0)
    | Tok.eq => do
        let r ← I.addsub true
        I.comparisonLoop (if Val.ceq left r then Val.num 1 else Val.num 0)
    | Tok.ne => do
        let r ← I.addsub true
        I.comparisonLoop (if Val.cne left r then Val.num 1 else Val.num 0)
    | _ => pure left
  expression := fun get => do
    let left ← I.comparison get
    I.expressionLoop left
  expressionLoop := fun left => do
    let t ← readType
    match t with
    | Tok.and_ => do
        let d ← I.comparison true
        I.expressionLoop
          (if Val.cne left (Val.num 0) && Val.cne d (Val.num 0)
           then Val.num 1 else Val.num 0)
    | Tok.or_ => do
        let d ← I.comparison true
        I.expressionLoop
          (if Val.cne left (Val.num 0) || Val.cne d (Val.num 0)
           then Val.num 1 else Val.num 0)
    | _ => pure left
  -- `CommaList` also calls `initRandom()` when `someNumber == 0`; since
  -- `someNumber` is never written, that reseeds `srand` from the clock on
  -- every call — invisible here because draws come from `Env.rnd`.
  commaList := fun get => do
    let left ← I.expression get
    I.commaListLoop left
  commaListLoop := fun left => do
    let t ← readType
    match t with
    | Tok.comma => do
        let r ← I.expression true
        I.commaListLoop r
    | _ => pure left

/-- The evaluator bundle at a given recursion depth. -/
def interp (env : Env) : ℕ → Interp
  | 0 => interpZero
  | n + 1 => interpStep env (interp env n)

/-- `Primary` at explicit depth. -/
def Primary (env : Env) (fuel : ℕ) (get : Bool) : M Val :=
  (interp env fuel).primary get

/-- `Term` at explicit depth. -/
def Term (env : Env) (fuel : ℕ) (get : Bool) : M Val :=
  (interp env fuel).term get

/-- `AddSubtract` at explicit depth. -/
def AddSubtract (env : Env) (fuel : ℕ) (get : Bool) : M Val :=
  (interp env fuel).addsub get

/-- `Comparison` at explicit depth. -/
def Comparison (env : Env) (fuel : ℕ) (get : Bool) : M Val :=
  (interp env fuel).comparison get

/-- `Expression` at explicit depth. -/
def Expression (env : Env) (fuel : ℕ) (get : Bool) : M Val :=
  (interp env fuel).expression get

/-- `CommaList` at explicit depth. -/
def CommaList (env : Env) (fuel : ℕ) (get : Bool) : M Val :=
  (interp env fuel).commaList get

/-- The globals as `Evaluate` initialises them: cursor at the start of the
expression, `type_ = NONE` and empty ghost trace. -/
def initSt (expr : String) (tab : Tab) : St :=
  { input := expr.data, start := expr.data, word := "", type := Tok.none_,
    value := Val.num 0, tab := tab, rndIx := 0, toks := [] }

/-- `Evaluate` up to the `setjmp` boundary: seed `pi`/`e`, reset the lexer,
run `CommaList(true)`, and require the final token to be `END` on pain of
the "Unexpected text at end of expression" error.  `none` is fuel
exhaustion of the model. -/
def EvaluateSt (env : Env) (fuel : ℕ) (expr : String) (tab : Tab) :
    Option (Except PErr Val × St) :=
  match (interp env fuel).commaList true (initSt expr (seedConsts tab)) with
  | none => none
  | some (Except.ok v, s) =>
      if s.type = Tok.end_ then some (Except.ok v, s)
      else some (Except.error (PErr.trailingText (String.mk s.start)), s)
  | some (Except.error e, s) => some (Except.error e, s)

/-- `Evaluate` as the caller sees it: the returned double (`sqrt(-1.0)`,
i.e. NaN, on error), the content of `ParserErrBuf` as `GetParserErr()`
reports it afterwards (cleared on entry, written by `runtime_error`), and
the symbol table left behind. -/
def Evaluate (env : Env) (fuel : ℕ) (expr : String) (tab : Tab) :
    Option (Val × String × Tab) :=
  match EvaluateSt env fuel expr tab with
  | none => none
  | some (Except.ok v, s) => some (v, "", s.tab)
  | some (Except.error e, s) => some (Val.nan, renderErr e, s.tab)

/-- Reference model of libm `pow` for concrete runs: exact on natural
exponents, unspecified (NaN) elsewhere. -/
def refPow : Val → Val → Val
  | Val.num a, Val.num b =>
      if 0 ≤ b.num ∧ b.den = 1 then Val.num (a ^ b.num.toNat) else Val.nan
  | _, _ => Val.nan

/-- A concrete environment for closed evaluations: clock at the epoch, an
all-zero `rand` stream, unspecified (NaN-valued) transcendental functions,
and `refPow` for libm `pow`. -/
def env0 : Env :=
  { timeSec := 0, tvSec := 0, tvUsec := 0, rnd := fun _ => 0,
    libm1 := fun _ _ => Val.nan, powF := refPow }

deriving instance DecidableEq for Except

/-- The table left by evaluating from an empty table: just the two seeded
constants. -/
def tabPiE : Tab := [("pi", Val.num piQ), ("e", Val.num eQ)]

/-- The n-fold left-associated repeated product `a·a·…·a` (`n` factors),
the specification's reading of "computed by repeated multiplication". -/
def specProd (a : Val) : ℕ → Val
  | 0 => a
  | 1 => a
  | n + 2 => Val.mul (specProd a (n + 1)) a

/-- The state in which evaluating `"1/0"` aborts. -/
def stDiv0 : St :=
  { input := [], start := [], word := "<end of expression>", type := Tok.end_,
    value := Val.num 0, tab := tabPiE, rndIx := 0,
    toks := [Tok.end_, Tok.number, Tok.divide, Tok.number] }

/-- No assignment token (`= += -= *= /=`) occurs in a token trace. -/
def NoAsg (l : List Tok) : Prop := ∀ t ∈ l, isAsg t = false

instance (l : List Tok) : Decidable (NoAsg l) := by
  unfold NoAsg
  infer_instance

/-- Frame invariant of a monadic computation: the ghost token trace only
grows, and if the final trace contains no assignment token then the symbol
table is unchanged (also across error exits). -/
def Inv {α : Type} (m : M α) : Prop :=
  ∀ s r s2, m s = some (r, s2) →
    (∃ δ, s2.toks = δ ++ s.toks) ∧ (NoAsg s2.toks → s2.tab = s.tab)

/-- Growth-only half of the invariant (holds even for computations that do
write the table, such as the assignment branches). -/
def InvGrow {α : Type} (m : M α) : Prop :=
  ∀ s r s2, m s = some (r, s2) → ∃ δ, s2.toks = δ ++ s.toks

/-- The state left by the `"x+1"` run used in the C8 witness. -/
def stX8 : St :=
  { input := [], start := [], word := "<end of expression>", type := Tok.end_,
    value := Val.num 1, tab := ("x", Val.num 5) :: tabPiE, rndIx := 0,
    toks := [Tok.end_, Tok.number, Tok.plus, Tok.name] }

/-- String append acts as list append on the character data. -/
theorem data_append (a b : String) : (a ++ b).data = a.data ++ b.data := by
  cases a
  cases b
  rfl

/-- A string with nonempty data is not the empty string. -/
theorem ne_empty_of_data (a : String) (h : a.data ≠ []) : a ≠ "" := by
  intro hc
  exact h (by simp [hc])

/-- Every message `runtime_error` can write is nonempty (it starts with
the `"Error! "` prefix). -/
theorem renderErr_ne_empty (e : PErr) : renderErr e ≠ "" := by
  apply ne_empty_of_data
  cases e <;> simp only [renderErr] <;> try split
  all_goals simp [data_append]

/-- The C comparison `v == NO_LHS_MATCH` is comparing against NaN, which is
false for every `v`, including NaN itself. -/
theorem ceq_nomatch (v : Val) : Val.ceq v NO_LHS_MATCH = false := by
  cases v <;> rfl

/-- After `SaveSymbol t k v`, looking up `k` finds `v`. -/
theorem lookupVar_save_self (t : Tab) (k : String) (v : Val) :
    lookupVar (SaveSymbol t k v) k = some v := by
  induction t with
  | nil => simp [SaveSymbol, lookupVar]
  | cons hd tl ih =>
    by_cases h : hd.1 = k
    · simp [SaveSymbol, h, lookupVar]
    · simp [SaveSymbol, h, lookupVar, ih]

/-- `SaveSymbol t k v` does not disturb other names. -/
theorem lookupVar_save_ne (t : Tab) (k n : String) (v : Val) (h : k ≠ n) :
    lookupVar (SaveSymbol t k v) n = lookupVar t n := by
  induction t with
  | nil => simp [SaveSymbol, lookupVar, h]
  | cons hd tl ih =>
    rcases hd with ⟨k0, v0⟩
    by_cases h2 : k0 = k
    · subst h2
      simp [SaveSymbol, lookupVar, h]
    · simp [SaveSymbol, h2, lookupVar, ih]

/-- Running `pure` in the monad. -/
theorem M.pure_apply {α : Type} (a : α) (s : St) :
    (pure a : M α) s = some (Except.ok a, s) := rfl

/-- Running a bind in the monad. -/
theorem M.bind_apply {α β : Type} (m : M α) (f : α → M β) (s : St) :
    (m >>= f) s = match m s with
      | none => none
      | some (Except.ok a, s1) => f a s1
      | some (Except.error e, s1) => some (Except.error e, s1) := rfl

/-- Pushing one multiplication out of `DoPow`'s accumulator loop. -/
theorem powLoop_mul (a : Val) (k : ℕ) :
    ∀ acc, powLoop a (Val.mul acc a) k = Val.mul (powLoop a acc k) a := by
  induction k with
  | zero => intro acc; rfl
  | succ k ih =>
    intro acc
    calc powLoop a (Val.mul acc a) (k + 1)
        = powLoop a (Val.mul (Val.mul acc a) a) k := rfl
      _ = Val.mul (powLoop a (Val.mul acc a) k) a := ih (Val.mul acc a)
      _ = Val.mul (powLoop a acc (k + 1)) a := rfl

/-- `DoPow`'s loop starting from `arg1` computes the (n+1)-fold repeated
product. -/
theorem powLoop_spec (a : Val) (n : ℕ) : powLoop a a n = specProd a (n + 1) := by
  induction n with
  | zero => rfl
  | succ n ih =>
    calc powLoop a a (n + 1)
        = powLoop a (Val.mul a a) n := rfl
      _ = Val.mul (powLoop a a n) a := powLoop_mul a n a
      _ = Val.mul (specProd a (n + 1)) a := by rw [ih]
      _ = specProd a (n + 2) := rfl

/-- C1: if the run succeeds, `Evaluate` returns the computed value and the
error message (`GetParserErr()` after the call) is empty; if the run aborts
through the error signal, `Evaluate` returns NaN and the message is the
nonempty `runtime_error` text. -/
theorem c1_eval_err_contract (env : Env) (fuel : ℕ) (expr : String) (tab : Tab)
    (r : Except PErr Val) (s : St) (hEv : EvaluateSt env fuel expr tab = some (r, s)) :
    (∀ v, r = Except.ok v → Evaluate env fuel expr tab = some (v, "", s.tab)) ∧
    (∀ e, r = Except.error e →
      Evaluate env fuel expr tab = some (Val.nan, renderErr e, s.tab) ∧
      renderErr e ≠ "") := by
  constructor
  · intro v hv
    subst hv
    simp [Evaluate, hEv]
  · intro e he
    subst he
    exact ⟨by simp [Evaluate, hEv], renderErr_ne_empty e⟩

/-- C1 witness: the contract applied to the concrete run `"1/0"`. -/
theorem c1_eval_err_contract_witness :
    EvaluateSt env0 50 "1/0" [] = some (Except.error PErr.divByZero, stDiv0) ∧
    Evaluate env0 50 "1/0" [] = some (Val.nan, renderErr PErr.divByZero, stDiv0.tab) ∧
    renderErr PErr.divByZero ≠ "" := by
  have h := c1_eval_err_contract env0 50 "1/0" [] (Except.error PErr.divByZero) stDiv0
    (by decide)
  exact ⟨by decide, (h.2 PErr.divByZero rfl).1, (h.2 PErr.divByZero rfl).2⟩

/-- C2 counterexample: `LookupSymbol` returns a single double and uses NaN
as its not-found report, so the lookup of an absent name is
indistinguishable from the lookup of a name legitimately storing NaN. -/
theorem c2_lookup_found_flag_cex :
    LookupSymbol env0 [("x", Val.nan)] "zzz" = LookupSymbol env0 [("x", Val.nan)] "x" := by
  decide

/-- C2 amended: for a name that is neither `time` nor `timems` nor stored,
`LookupSymbol` returns the numeric sentinel `NO_LHS_MATCH` (NaN) rather
than an explicit found flag. -/
theorem c2_lookup_sentinel (env : Env) (tab : Tab) (name : String)
    (h1 : name ≠ "time") (h2 : name ≠ "timems") (h3 : lookupVar tab name = none) :
    LookupSymbol env tab name = NO_LHS_MATCH := by
  simp [LookupSymbol, h1, h2, h3]

/-- C2 amended witness: the sentinel result on a concrete absent name. -/
theorem c2_lookup_sentinel_witness :
    LookupSymbol env0 [("x", Val.nan)] "zzz" = NO_LHS_MATCH :=
  c2_lookup_sentinel env0 [("x", Val.nan)] "zzz" (by decide) (by decide) (by decide)

/-- C3: the auto-create branch of `Primary` compares the lookup result to
`NO_LHS_MATCH` (NaN) with C `==`, which no value satisfies; evaluating
`"x+1"` with `x` undefined therefore returns NaN, signals no error, and
leaves `x` absent from the symbol table. -/
theorem c3_autocreate_dead :
    (∀ v : Val, Val.ceq v NO_LHS_MATCH = false) ∧
    Evaluate env0 50 "x+1" [] = some (Val.nan, "", tabPiE) ∧
    lookupVar tabPiE "x" = none :=
  ⟨ceq_nomatch, by decide, by decide⟩

/-- C4: `^` sits in `Term` with `*` and `/`, all left-associative at one
tier below parentheses and above `+`/`-`: the spec's three vectors hold,
`2 * 3 ^ 2` groups as `(2*3)^2 = 36` (one tier, left to right) and
`2 ^ 3 ^ 2` as `(2^3)^2 = 64` (left-associative). -/
theorem c4_term_precedence :
    Evaluate env0 64 "2 + 3 * 6" [] = some (Val.num 20, "", tabPiE) ∧
    Evaluate env0 64 "1 + 10 ^ 2" [] = some (Val.num 101, "", tabPiE) ∧
    Evaluate env0 64 "(2 + 3) * 6" [] = some (Val.num 30, "", tabPiE) ∧
    Evaluate env0 64 "2 * 3 ^ 2" [] = some (Val.num 36, "", tabPiE) ∧
    Evaluate env0 64 "2 ^ 3 ^ 2" [] = some (Val.num 64, "", tabPiE) :=
  ⟨by decide, by decide, by decide, by decide, by decide⟩

/-- C5: divide-by-zero is signalled exactly when the divisor compares equal
to `0.0`: `DoFmod` (the `mod` builtin) aborts precisely when `arg2 == 0.0`,
and the `/` operator, `mod(7,0)` and `/=` sites abort on a zero divisor
while a NaN divisor (not `==` 0.0) slips through without an error. -/
theorem c5_divide_by_zero_sites :
    (∀ (env : Env) (a b : Val) (s : St),
      (Val.ceq b (Val.num 0) = true →
        DoFmod env a b s = some (Except.error PErr.divByZeroMod, s)) ∧
      (Val.ceq b (Val.num 0) = false →
        DoFmod env a b s = some (Except.ok (cfmod a b), s))) ∧
    Evaluate env0 64 "2/0" [] = some (Val.nan, "Error! Divide by zero", tabPiE) ∧
    Evaluate env0 64 "mod(7,0)" [] =
      some (Val.nan, "Error! Divide by zero in mod", tabPiE) ∧
    Evaluate env0 64 "a=4, a/=0" [] =
      some (Val.nan, "Error! Divide by zero", tabPiE ++ [("a", Val.num 4)]) ∧
    Evaluate env0 64 "4/a" [("a", Val.nan)] =
      some (Val.nan, "", ("a", Val.nan) :: tabPiE) ∧
    Evaluate env0 64 "8/2" [] = some (Val.num 4, "", tabPiE) := by
  refine ⟨fun env a b s => ⟨fun h => ?_, fun h => ?_⟩, by decide, by decide, by decide,
    by decide, by decide⟩
  · simp [DoFmod, h, throwErr]
  · simp [DoFmod, h, M.pure_apply]

/-- C5 witness: the `DoFmod` clauses applied at `b = 0` and at `b = 3`. -/
theorem c5_divide_by_zero_sites_witness :
    (Val.ceq (Val.num 0) (Val.num 0) = true ∧
      DoFmod env0 (Val.num 7) (Val.num 0) stDiv0 =
        some (Except.error PErr.divByZeroMod, stDiv0)) ∧
    (Val.ceq (Val.num 3) (Val.num 0) = false ∧
      DoFmod env0 (Val.num 7) (Val.num 3) stDiv0 =
        some (Except.ok (cfmod (Val.num 7) (Val.num 3)), stDiv0)) :=
  ⟨⟨by decide, (c5_divide_by_zero_sites.1 env0 (Val.num 7) (Val.num 0) stDiv0).1 (by decide)⟩,
   ⟨by decide, (c5_divide_by_zero_sites.1 env0 (Val.num 7) (Val.num 3) stDiv0).2 (by decide)⟩⟩

/-- C6: when `arg2` is a positive integer `n ≤ 64` (`(double)(int)arg2 ==
arg2`), `DoPow` returns the n-fold repeated product of `arg1`; for every
other `arg2` (including NaN) it returns libm `pow` on the arguments. -/
theorem c6_dopow (env : Env) (a : Val) (q : ℚ) :
    (0 < truncQ q ∧ truncQ q ≤ 64 ∧ ((truncQ q : ℚ) = q) →
      DoPow env a (Val.num q) = specProd a (truncQ q).toNat) ∧
    (¬(0 < truncQ q ∧ truncQ q ≤ 64 ∧ ((truncQ q : ℚ) = q)) →
      DoPow env a (Val.num q) = env.powF a (Val.num q)) ∧
    DoPow env a Val.nan = env.powF a Val.nan := by
  refine ⟨fun h => ?_, fun h => ?_, rfl⟩
  · have h1 : (truncQ q).toNat = ((truncQ q).toNat - 1) + 1 := by omega
    simp only [DoPow, if_pos h]
    rw [h1]
    exact powLoop_spec a ((truncQ q).toNat - 1)
  · simp only [DoPow, if_neg h]

/-- C6 witness: the repeated-multiplication branch at `pow(3, 5) = 243` and
the fallback branch at exponent `1/2`. -/
theorem c6_dopow_witness :
    (0 < truncQ 5 ∧ truncQ 5 ≤ 64 ∧ ((truncQ 5 : ℚ) = 5)) ∧
    DoPow env0 (Val.num 3) (Val.num 5) = specProd (Val.num 3) (truncQ 5).toNat ∧
    specProd (Val.num 3) (truncQ 5).toNat = Val.num 243 ∧
    DoPow env0 (Val.num 3) (Val.num (1/2)) = env0.powF (Val.num 3) (Val.num (1/2)) :=
  ⟨by decide, (c6_dopow env0 (Val.num 3) 5).1 (by decide), by decide,
   (c6_dopow env0 (Val.num 3) (1/2)).2.1 (by decide)⟩

/-- C7: every `Evaluate` call seeds `pi` and `e` into the table before
parsing, overwriting any prior binding of those names; concretely, a call
that assigns `pi = 99` is followed by a call that still reads the constants
for `pi` and `e`. -/
theorem c7_seed_constants :
    (∀ tab : Tab, lookupVar (seedConsts tab) "pi" = some (Val.num piQ) ∧
      lookupVar (seedConsts tab) "e" = some (Val.num eQ)) ∧
    Evaluate env0 64 "pi = 99" [] =
      some (Val.num 99, "", [("pi", Val.num 99), ("e", Val.num eQ)]) ∧
    Evaluate env0 64 "pi + e" [("pi", Val.num 99), ("e", Val.num eQ)] =
      some (Val.num (piQ + eQ), "", tabPiE) := by
  refine ⟨fun tab => ⟨?_, ?_⟩, by decide, by decide⟩
  · rw [seedConsts, lookupVar_save_ne _ _ _ _ (by decide), lookupVar_save_self]
  · rw [seedConsts, lookupVar_save_self]

/-- C9 counterexample: with `a` preloaded to 1 and nothing happening
between the two calls, evaluating `"a+=1"` twice returns 2 and then 3. -/
theorem c9_idempotence_cex :
    Evaluate env0 64 "a+=1" [("a", Val.num 1)] =
      some (Val.num 2, "", ("a", Val.num 2) :: tabPiE) ∧
    Evaluate env0 64 "a+=1" (("a", Val.num 2) :: tabPiE) =
      some (Val.num 3, "", ("a", Val.num 3) :: tabPiE) ∧
    (Val.num 2 : Val) ≠ Val.num 3 :=
  ⟨by decide, by decide, by decide⟩

/-- C9 amended: `Evaluate` is a deterministic function of the expression,
the environment (time and random draws) and the symbol table, so a second
call with the same expression and environment whose starting table equals
the table the first call produced returns the same value and message. -/
theorem c9_deterministic_rerun (env : Env) (fuel : ℕ) (expr : String) (tab : Tab)
    (v : Val) (m : String) (tabOut : Tab)
    (h : Evaluate env fuel expr tab = some (v, m, tabOut)) (hfix : tabOut = tab) :
    Evaluate env fuel expr tabOut = some (v, m, tabOut) := by
  subst hfix
  exact h

/-- C9 amended witness: rerunning `"1+1"` from the already-seeded table. -/
theorem c9_deterministic_rerun_witness :
    Evaluate env0 64 "1+1" tabPiE = some (Val.num 2, "", tabPiE) :=
  c9_deterministic_rerun env0 64 "1+1" tabPiE (Val.num 2) "" tabPiE (by decide) rfl

/-- C10: when `"a=5, 1/0"` aborts on the division, `Evaluate` returns NaN
with the nonempty divide-by-zero message, yet the assignment `a = 5`
performed before the abort persists in the symbol table. -/
theorem c10_no_rollback :
    Evaluate env0 64 "a=5, 1/0" [] =
      some (Val.nan, "Error! Divide by zero", tabPiE ++ [("a", Val.num 5)]) ∧
    lookupVar (tabPiE ++ [("a", Val.num 5)]) "a" = some (Val.num 5) ∧
    ("Error! Divide by zero" : String) ≠ "" :=
  ⟨by decide, by decide, by decide⟩

theorem inv_invGrow {α : Type} (m : M α) (h : Inv m) : InvGrow m :=
  fun s r s2 hm => (h s r s2 hm).1

theorem noAsg_of_grow {l1 l2 : List Tok} (h : ∃ δ, l2 = δ ++ l1)
    (hna : NoAsg l2) : NoAsg l1 := by
  obtain ⟨δ, hδ⟩ := h
  intro t ht
  exact hna t (by rw [hδ]; exact List.mem_append_right _ ht)

theorem inv_pure {α : Type} (a : α) : Inv (pure a : M α) := by
  intro s r s2 h
  rw [M.pure_apply] at h
  injection h with h1
  obtain ⟨h2, h3⟩ := Prod.mk.injEq .. ▸ h1
  cases Prod.mk.injEq .. |>.mp h1 |>.2
  exact ⟨⟨[], rfl⟩, fun _ => rfl⟩

theorem inv_throw {α : Type} (e : PErr) : Inv (throwErr e : M α) := by
  intro s r s2 h
  cases Prod.mk.injEq .. |>.mp (Option.some.injEq .. |>.mp h) |>.2
  exact ⟨⟨[], rfl⟩, fun _ => rfl⟩

theorem inv_outOfFuel {α : Type} : Inv (outOfFuel : M α) := by
  intro s r s2 h
  exact absurd h (by simp [outOfFuel])

theorem inv_bind {α β : Type} (m : M α) (f : α → M β)
    (hm : Inv m) (hf : ∀ a, Inv (f a)) : Inv (m >>= f) := by
  intro s r s2 h
  rw [M.bind_apply] at h
  cases hms : m s with
  | none => rw [hms] at h; exact absurd h (by simp)
  | some p =>
    rw [hms] at h
    rcases p with ⟨r1, s1⟩
    cases r1 with
    | ok a =>
      obtain ⟨⟨δ1, hδ1⟩, htab1⟩ := hm s (Except.ok a) s1 hms
      obtain ⟨⟨δ2, hδ2⟩, htab2⟩ := hf a s1 r s2 h
      refine ⟨⟨δ2 ++ δ1, by rw [hδ2, hδ1, List.append_assoc]⟩, fun hna => ?_⟩
      have hna1 : NoAsg s1.toks := noAsg_of_grow ⟨δ2, hδ2⟩ hna
      rw [htab2 hna, htab1 hna1]
    | error e =>
      obtain ⟨⟨δ1, hδ1⟩, htab1⟩ := hm s (Except.error e) s1 hms
      cases Prod.mk.injEq .. |>.mp (Option.some.injEq .. |>.mp h) |>.2
      exact ⟨⟨δ1, hδ1⟩, htab1⟩

theorem grow_pure {α : Type} (a : α) : InvGrow (pure a : M α) :=
  inv_invGrow _ (inv_pure a)

theorem grow_bind {α β : Type} (m : M α) (f : α → M β)
    (hm : InvGrow m) (hf : ∀ a, InvGrow (f a)) : InvGrow (m >>= f) := by
  intro s r s2 h
  rw [M.bind_apply] at h
  cases hms : m s with
  | none => rw [hms] at h; exact absurd h (by simp)
  | some p =>
    rw [hms] at h
    rcases p with ⟨r1, s1⟩
    cases r1 with
    | ok a =>
      obtain ⟨δ1, hδ1⟩ := hm s (Except.ok a) s1 hms
      obtain ⟨δ2, hδ2⟩ := hf a s1 r s2 h
      exact ⟨δ2 ++ δ1, by rw [hδ2, hδ1, List.append_assoc]⟩
    | error e =>
      obtain ⟨δ1, hδ1⟩ := hm s (Except.error e) s1 hms
      cases Prod.mk.injEq .. |>.mp (Option.some.injEq .. |>.mp h) |>.2
      exact ⟨δ1, hδ1⟩

theorem grow_throw {α : Type} (e : PErr) : InvGrow (throwErr e : M α) :=
  inv_invGrow _ (inv_throw e)

theorem grow_save (lhs : String) (rhs : Val) : InvGrow (saveSymM lhs rhs) := by
  intro s r s2 h
  cases Prod.mk.injEq .. |>.mp (Option.some.injEq .. |>.mp h) |>.2
  exact ⟨[], rfl⟩

theorem inv_readType : Inv readType := by
  intro s r s2 h
  cases Prod.mk.injEq .. |>.mp (Option.some.injEq .. |>.mp h) |>.2
  exact ⟨⟨[], rfl⟩, fun _ => rfl⟩

theorem inv_readWord : Inv readWord := by
  intro s r s2 h
  cases Prod.mk.injEq .. |>.mp (Option.some.injEq .. |>.mp h) |>.2
  exact ⟨⟨[], rfl⟩, fun _ => rfl⟩

theorem inv_readValue : Inv readValue := by
  intro s r s2 h
  cases Prod.mk.injEq .. |>.mp (Option.some.injEq .. |>.mp h) |>.2
  exact ⟨⟨[], rfl⟩, fun _ => rfl⟩

theorem inv_lookupSym (env : Env) (lhs : String) : Inv (lookupSymM env lhs) := by
  intro s r s2 h
  cases Prod.mk.injEq .. |>.mp (Option.some.injEq .. |>.mp h) |>.2
  exact ⟨⟨[], rfl⟩, fun _ => rfl⟩

theorem inv_checkTok (wanted : Tok) : Inv (checkTok wanted) := by
  intro s r s2 h
  unfold checkTok at h
  split at h <;>
    (cases Prod.mk.injEq .. |>.mp (Option.some.injEq .. |>.mp h) |>.2;
     exact ⟨⟨[], rfl⟩, fun _ => rfl⟩)

theorem inv_randM (env : Env) : Inv (randM env) := by
  intro s r s2 h
  cases Prod.mk.injEq .. |>.mp (Option.some.injEq .. |>.mp h) |>.2
  exact ⟨⟨[], rfl⟩, fun _ => rfl⟩

theorem inv_getrandomM (env : Env) (x : ℤ) : Inv (getrandomM env x) := by
  unfold getrandomM
  split
  · exact inv_pure 0
  · exact inv_bind _ _ (inv_randM env) (fun d => inv_pure _)

theorem inv_percentM (env : Env) (p : ℤ) : Inv (percentM env p) := by
  unfold percentM
  split
  · exact inv_pure false
  · split
    · exact inv_pure true
    · exact inv_bind _ _ (inv_getrandomM env 100) (fun g => inv_pure _)

theorem inv_fun1 (p : String × Fn1) (hp : p ∈ fun1_table) (env : Env) (v : Val) :
    Inv (p.2 env v) := by
  fin_cases hp <;>
    first
      | exact inv_pure _
      | exact inv_bind _ _ (inv_getrandomM env _) (fun r => inv_pure _)
      | exact inv_bind _ _ (inv_percentM env _) (fun b => inv_pure _)

theorem inv_DoFmod (env : Env) (a b : Val) : Inv (DoFmod env a b) := by
  unfold DoFmod
  split
  · exact inv_throw _
  · exact inv_pure _

theorem inv_fun2 (p : String × Fn2) (hp : p ∈ fun2_table) (env : Env) (a b : Val) :
    Inv (p.2 env a b) := by
  fin_cases hp <;>
    first
      | exact inv_pure _
      | exact inv_DoFmod env a b

theorem inv_fun3 (p : String × Fn3) (hp : p ∈ fun3_table) (env : Env) (a b c : Val) :
    Inv (p.2 env a b c) := by
  fin_cases hp
  exact inv_pure _

theorem inv_lookupFun1 (w : String) (f : Fn1) (hf : LookupFun1 w = some f)
    (env : Env) (v : Val) : Inv (f env v) := by
  unfold LookupFun1 at hf
  cases hfind : List.find? (fun e => e.1 == w) fun1_table with
  | none => rw [hfind] at hf; exact absurd hf (by simp)
  | some p =>
    rw [hfind] at hf
    have hp : p ∈ fun1_table := List.mem_of_find?_eq_some hfind
    have : p.2 = f := by simpa using hf
    exact this ▸ inv_fun1 p hp env v

theorem inv_lookupFun2 (w : String) (f : Fn2) (hf : LookupFun2 w = some f)
    (env : Env) (a b : Val) : Inv (f env a b) := by
  unfold LookupFun2 at hf
  cases hfind : List.find? (fun e => e.1 == w) fun2_table with
  | none => rw [hfind] at hf; exact absurd hf (by simp)
  | some p =>
    rw [hfind] at hf
    have hp : p ∈ fun2_table := List.mem_of_find?_eq_some hfind
    have : p.2 = f := by simpa using hf
    exact this ▸ inv_fun2 p hp env a b

theorem inv_lookupFun3 (w : String) (f : Fn3) (hf : LookupFun3 w = some f)
    (env : Env) (a b c : Val) : Inv (f env a b c) := by
  unfold LookupFun3 at hf
  cases hfind : List.find? (fun e => e.1 == w) fun3_table with
  | none => rw [hfind] at hf; exact absurd hf (by simp)
  | some p =>
    rw [hfind] at hf
    have hp : p ∈ fun3_table := List.mem_of_find?_eq_some hfind
    have : p.2 = f := by simpa using hf
    exact this ▸ inv_fun3 p hp env a b c

/-- On success `GetToken` records exactly its returned token: the table is
untouched, the trace gains the token, and `type_` holds it. -/
theorem getTokenFn_ok (ign : Bool) (s : St) (t : Tok) (s2 : St)
    (h : getTokenFn ign s = (Except.ok t, s2)) :
    s2.tab = s.tab ∧ s2.toks = t :: s.toks ∧ s2.type = t := by
  simp only [getTokenFn] at h
  repeat' split at h
  all_goals
    (obtain ⟨h1, h2⟩ := Prod.mk.injEq .. |>.mp h
     cases h1 <;> (cases h2; exact ⟨rfl, rfl, rfl⟩))

/-- On error `GetToken` leaves the table and the trace unchanged. -/
theorem getTokenFn_err (ign : Bool) (s : St) (e : PErr) (s2 : St)
    (h : getTokenFn ign s = (Except.error e, s2)) :
    s2.tab = s.tab ∧ s2.toks = s.toks := by
  simp only [getTokenFn] at h
  repeat' split at h
  all_goals
    (obtain ⟨h1, h2⟩ := Prod.mk.injEq .. |>.mp h
     cases h1 <;> (cases h2; exact ⟨rfl, rfl⟩))

theorem inv_getToken (ign : Bool) : Inv (GetToken ign) := by
  intro s r s2 h
  have h2 : getTokenFn ign s = (r, s2) := by
    injection h
  cases r with
  | ok t =>
    obtain ⟨ht, hk, _⟩ := getTokenFn_ok ign s t s2 h2
    exact ⟨⟨[t], by rw [hk]; rfl⟩, fun _ => ht⟩
  | error e =>
    obtain ⟨ht, hk⟩ := getTokenFn_err ign s e s2 h2
    exact ⟨⟨[], by rw [hk]; rfl⟩, fun _ => ht⟩

/-- Binding on `GetToken`: the continuation sees a state whose trace is
headed by the token it receives, so a continuation that only writes the
table under an assignment token either preserves the invariant or is
absorbed by the assignment token now present in the trace. -/
theorem inv_bind_getToken {α : Type} (b : Bool) (k : Tok → M α)
    (hk : ∀ t, Inv (k t) ∨ (isAsg t = true ∧ InvGrow (k t))) :
    Inv (GetToken b >>= k) := by
  intro s r s2 h
  rw [M.bind_apply] at h
  cases hg : getTokenFn b s with
  | mk r1 s1 =>
    have hG : GetToken b s = some (r1, s1) := by rw [GetToken, hg]
    rw [hG] at h
    cases r1 with
    | error e =>
      obtain ⟨h1, h2⟩ := Prod.mk.injEq .. |>.mp (Option.some.injEq .. |>.mp h)
      cases h1
      cases h2
      obtain ⟨ht, hk2⟩ := getTokenFn_err b s e _ hg
      exact ⟨⟨[], by rw [hk2]; rfl⟩, fun _ => ht⟩
    | ok t =>
      obtain ⟨htab, htoks, _⟩ := getTokenFn_ok b s t s1 hg
      rcases hk t with hInv | ⟨hasg, hgrow⟩
      · obtain ⟨⟨δ, hδ⟩, htab2⟩ := hInv s1 r s2 h
        refine ⟨⟨δ ++ [t], by rw [hδ, htoks]; simp⟩, fun hna => ?_⟩
        have hna1 : NoAsg s1.toks := noAsg_of_grow ⟨δ, hδ⟩ hna
        rw [htab2 hna]
        exact htab
      · obtain ⟨δ, hδ⟩ := hgrow s1 r s2 h
        refine ⟨⟨δ ++ [t], by rw [hδ, htoks]; simp⟩, fun hna => ?_⟩
        have hmem : t ∈ s2.toks := by
          rw [hδ, htoks]
          exact List.mem_append_right _ (List.mem_cons_self t _)
        exact absurd (hna t hmem) (by simp [hasg])

theorem grow_getToken (ign : Bool) : InvGrow (GetToken ign) :=
  inv_invGrow _ (inv_getToken ign)

theorem grow_lookupSym (env : Env) (lhs : String) : InvGrow (lookupSymM env lhs) :=
  inv_invGrow _ (inv_lookupSym env lhs)

theorem grow_checkTok (wanted : Tok) : InvGrow (checkTok wanted) :=
  inv_invGrow _ (inv_checkTok wanted)

/-- One-step preservation for `Primary`: the only table writes are the
dead auto-create branch (killed by `ceq_nomatch`) and the five assignment
branches, each guarded by an assignment token that `GetToken` has pushed
onto the trace. -/
theorem inv_primary_step (env : Env) (I : Interp)
    (hP : ∀ g, Inv (I.primary g))
    (hE : ∀ g, Inv (I.expression g))
    (hL : ∀ g, Inv (I.commaList g))
    (g : Bool) : Inv ((interpStep env I).primary g) := by
  simp only [interpStep]
  refine inv_bind _ _ ?_ (fun _ => ?_)
  · split
    · exact inv_getToken false
    · exact inv_pure _
  · refine inv_bind _ _ inv_readType (fun t => ?_)
    cases t
    case number =>
      exact inv_bind _ _ inv_readValue (fun v =>
        inv_bind _ _ (inv_getToken true) (fun _ => inv_pure _))
    case minus =>
      exact inv_bind _ _ (hP true) (fun r => inv_pure _)
    case not_ =>
      exact inv_bind _ _ (hP true) (fun r => inv_pure _)
    case lhparen =>
      exact inv_bind _ _ (hL true) (fun v =>
        inv_bind _ _ (inv_checkTok _) (fun _ =>
          inv_bind _ _ (inv_getToken true) (fun _ => inv_pure _)))
    case end_ =>
      exact inv_throw _
    case name =>
      refine inv_bind _ _ inv_readWord (fun word => ?_)
      refine inv_bind_getToken true _ (fun t2 => ?_)
      by_cases h2 : t2 = Tok.lhparen
      · left
        rw [if_pos h2]
        cases hf1 : LookupFun1 word with
        | some f =>
          simp only [hf1]
          exact inv_bind _ _ (hE true) (fun v =>
            inv_bind _ _ (inv_checkTok _) (fun _ =>
              inv_bind _ _ (inv_getToken true) (fun _ =>
                inv_lookupFun1 word f hf1 env v)))
        | none =>
          cases hf2 : LookupFun2 word with
          | some f =>
            simp only [hf1, hf2]
            exact inv_bind _ _ (hE true) (fun v1 =>
              inv_bind _ _ (inv_checkTok _) (fun _ =>
                inv_bind _ _ (hE true) (fun v2 =>
                  inv_bind _ _ (inv_checkTok _) (fun _ =>
                    inv_bind _ _ (inv_getToken true) (fun _ =>
                      inv_lookupFun2 word f hf2 env v1 v2)))))
          | none =>
            cases hf3 : LookupFun3 word with
            | some f =>
              simp only [hf1, hf2, hf3]
              exact inv_bind _ _ (hE true) (fun v1 =>
                inv_bind _ _ (inv_checkTok _) (fun _ =>
                  inv_bind _ _ (hE true) (fun v2 =>
                    inv_bind _ _ (inv_checkTok _) (fun _ =>
                      inv_bind _ _ (hE true) (fun v3 =>
                        inv_bind _ _ (inv_checkTok _) (fun _ =>
                          inv_bind _ _ (inv_getToken true) (fun _ =>
                            inv_lookupFun3 word f hf3 env v1 v2 v3)))))))
            | none =>
              simp only [hf1, hf2, hf3]
              exact inv_throw _
      · rw [if_neg h2]
        cases t2
        all_goals first
          | exact absurd rfl h2
          | (refine Or.inr ⟨rfl, ?_⟩
             refine grow_bind _ _ (grow_lookupSym env word) (fun v => ?_)
             refine grow_bind _ _ ?_ (fun _ => ?_)
             · split
               · exact grow_save word v
               · exact grow_pure _
             · first
                 | exact grow_bind _ _ (inv_invGrow _ (hE true)) (fun r =>
                     grow_bind _ _ (grow_save word _) (fun _ => grow_pure _))
                 | (refine grow_bind _ _ (inv_invGrow _ (hE true)) (fun d => ?_)
                    split
                    · exact grow_throw _
                    · exact grow_bind _ _ (grow_save word _) (fun _ => grow_pure _)))
          | (refine Or.inl (inv_bind _ _ (inv_lookupSym env word) (fun v => ?_))
             refine inv_bind _ _ ?_ (fun _ => inv_pure _)
             simp only [ceq_nomatch]
             exact inv_pure _)
    all_goals
      exact inv_bind _ _ inv_readWord (fun w => inv_throw _)

/-- The frame invariant holds for every level of the evaluator at every
depth: the trace grows, and without an assignment token in the final trace
the symbol table is untouched. -/
theorem interp_inv (env : Env) (fuel : ℕ) :
    (∀ g, Inv ((interp env fuel).primary g)) ∧
    (∀ g, Inv ((interp env fuel).term g)) ∧
    (∀ v, Inv ((interp env fuel).termLoop v)) ∧
    (∀ g, Inv ((interp env fuel).addsub g)) ∧
    (∀ v, Inv ((interp env fuel).addsubLoop v)) ∧
    (∀ g, Inv ((interp env fuel).comparison g)) ∧
    (∀ v, Inv ((interp env fuel).comparisonLoop v)) ∧
    (∀ g, Inv ((interp env fuel).expression g)) ∧
    (∀ v, Inv ((interp env fuel).expressionLoop v)) ∧
    (∀ g, Inv ((interp env fuel).commaList g)) ∧
    (∀ v, Inv ((interp env fuel).commaListLoop v)) := by
  induction fuel with
  | zero =>
    refine ⟨fun g => ?_, fun g => ?_, fun v => ?_, fun g => ?_, fun v => ?_, fun g => ?_,
      fun v => ?_, fun g => ?_, fun v => ?_, fun g => ?_, fun v => ?_⟩ <;>
      exact inv_outOfFuel
  | succ n ih =>
    obtain ⟨ihP, ihT, ihTL, ihA, ihAL, ihC, ihCL, ihE, ihEL, ihL, ihLL⟩ := ih
    refine ⟨fun g => ?_, fun g => ?_, fun v => ?_, fun g => ?_, fun v => ?_, fun g => ?_,
      fun v => ?_, fun g => ?_, fun v => ?_, fun g => ?_, fun v => ?_⟩
    case _ =>
      exact inv_primary_step env (interp env n) ihP ihE ihL g
    case _ =>
      exact inv_bind _ _ (ihP g) (fun a => ihTL a)
    case _ =>
      refine inv_bind _ _ inv_readType (fun t => ?_)
      cases t <;>
        first
          | exact inv_pure _
          | exact inv_bind _ _ (ihP true) (fun r => ihTL _)
          | (refine inv_bind _ _ (ihP true) (fun d => ?_)
             split
             · exact inv_throw _
             · exact ihTL _)
    case _ =>
      exact inv_bind _ _ (ihT g) (fun a => ihAL a)
    case _ =>
      refine inv_bind _ _ inv_readType (fun t => ?_)
      cases t <;>
        first
          | exact inv_pure _
          | exact inv_bind _ _ (ihT true) (fun r => ihAL _)
    case _ =>
      exact inv_bind _ _ (ihA g) (fun a => ihCL a)
    case _ =>
      refine inv_bind _ _ inv_readType (fun t => ?_)
      cases t <;>
        first
          | exact inv_pure _
          | exact inv_bind _ _ (ihA true) (fun r => ihCL _)
    case _ =>
      exact inv_bind _ _ (ihC g) (fun a => ihEL a)
    case _ =>
      refine inv_bind _ _ inv_readType (fun t => ?_)
      cases t <;>
        first
          | exact inv_pure _
          | exact inv_bind _ _ (ihC true) (fun r => ihEL _)
    case _ =>
      exact inv_bind _ _ (ihE g) (fun a => ihLL a)
    case _ =>
      refine inv_bind _ _ inv_readType (fun t => ?_)
      cases t <;>
        first
          | exact inv_pure _
          | exact inv_bind _ _ (ihE true) (fun r => ihLL _)

/-- If an `Evaluate` run emits no assignment token, the symbol table it
leaves behind is exactly the input table with `pi` and `e` re-seeded. -/
theorem evaluateSt_frame (env : Env) (fuel : ℕ) (expr : String) (tab : Tab)
    (r : Except PErr Val) (s2 : St)
    (h : EvaluateSt env fuel expr tab = some (r, s2)) (hna : NoAsg s2.toks) :
    s2.tab = seedConsts tab := by
  unfold EvaluateSt at h
  cases hrun : (interp env fuel).commaList true (initSt expr (seedConsts tab)) with
  | none =>
    simp only [hrun] at h
    exact Option.noConfusion h
  | some p =>
    rcases p with ⟨r1, s1⟩
    have hinv := ((interp_inv env fuel).2.2.2.2.2.2.2.2.2.1 true)
      (initSt expr (seedConsts tab)) r1 s1 hrun
    cases r1 with
    | ok v =>
      simp only [hrun] at h
      have hs2 : s2 = s1 := by
        split at h <;>
          (obtain ⟨h1, h2⟩ := Prod.mk.injEq .. |>.mp (Option.some.injEq .. |>.mp h)
           exact h2.symm)
      subst hs2
      exact hinv.2 hna
    | error e =>
      simp only [hrun] at h
      have hs2 : s2 = s1 := by
        obtain ⟨h1, h2⟩ := Prod.mk.injEq .. |>.mp (Option.some.injEq .. |>.mp h)
        exact h2.symm
      subst hs2
      exact hinv.2 hna

/-- C8 counterexample: `"1"` contains no assignment token, yet evaluating
it overwrites a stored symbol, because `pi` (value 7 here) is re-seeded to
its constant on every call. -/
theorem c8_frame_cex :
    Evaluate env0 64 "1" [("pi", Val.num 7)] = some (Val.num 1, "", tabPiE) ∧
    lookupVar [("pi", Val.num 7)] "pi" = some (Val.num 7) ∧
    lookupVar tabPiE "pi" = some (Val.num piQ) ∧
    Val.num piQ ≠ Val.num 7 :=
  ⟨by decide, by decide, by decide, by decide⟩

/-- C8 amended: an evaluation that emits no assignment token
(`= += -= *= /=`) leaves every stored symbol except the re-seeded
constants `pi` and `e` unchanged; concretely, after `SaveSymbol("x", 5)`,
`Evaluate("x+1")` returns 6 and `x` still holds 5, found. -/
theorem c8_frame (env : Env) (fuel : ℕ) (expr : String) (tab : Tab)
    (r : Except PErr Val) (s2 : St)
    (h : EvaluateSt env fuel expr tab = some (r, s2)) (hna : NoAsg s2.toks) :
    (∀ name, name ≠ "pi" → name ≠ "e" →
      lookupVar s2.tab name = lookupVar tab name) ∧
    Evaluate env0 64 "x+1" [("x", Val.num 5)] =
      some (Val.num 6, "", ("x", Val.num 5) :: tabPiE) ∧
    lookupVar (("x", Val.num 5) :: tabPiE) "x" = some (Val.num 5) := by
  refine ⟨fun name hpi he => ?_, by decide, by decide⟩
  rw [evaluateSt_frame env fuel expr tab r s2 h hna, seedConsts,
    lookupVar_save_ne _ _ _ _ (fun hc => he hc.symm),
    lookupVar_save_ne _ _ _ _ (fun hc => hpi hc.symm)]

/-- C8 witness: the frame theorem applied to the concrete run `"x+1"` from
a table holding `x = 5`. -/
theorem c8_frame_witness :
    EvaluateSt env0 64 "x+1" [("x", Val.num 5)] = some (Except.ok (Val.num 6), stX8) ∧
    NoAsg stX8.toks ∧
    lookupVar stX8.tab "x" = lookupVar [("x", Val.num 5)] "x" ∧
    lookupVar [("x", Val.num 5)] "x" = some (Val.num 5) := by
  have h := c8_frame env0 64 "x+1" [("x", Val.num 5)] (Except.ok (Val.num 6)) stX8
    (by decide) (by decide)
  exact ⟨by decide, by decide, h.1 "x" (by decide) (by decide), by decide⟩

end CParser
